import Mathlib

/-!
Verification development for the edx-platform excerpts: the program-enrollments
REST API (bulk write endpoints, listing pagination, course grades aggregation),
the XBlock runtime Django app-configuration classes, and the CMS devstack
settings module.

The bulk-write and read endpoints of
lms/djangoapps/program_enrollments/rest_api/v1/views.py are not part of the
provided sources (only their test suite
src/lms/djangoapps/program_enrollments/rest_api/v1/tests/test_views.py is), so
the view behaviour is modelled from the specification, which describes
"bulk create/patch/put semantics with per-record status reporting, duplicate
detection, pagination", "multi-status partial-failure responses" and
"status-based state transitions", with the per-record status strings and
response codes fixed by the in-repository test suite.
-/

/-- HTTP method of a bulk enrollment write request. -/
inductive Method where
  | post
  | patch
  | put
deriving DecidableEq, Repr

/-- A request record after serialization: (student_key, requested status). -/
abbrev ReqRecord := String × String

/-- Enrollment store for one program (or one program-course pair):
an association list from external student key to stored enrollment status.
Keys are unique in the store, mirroring the per-program uniqueness of
external user keys in the enrollment models. -/
abbrev Store := List (String × String)

/-- Modelled from the spec: the maximum number of enrollment records accepted
by one bulk write request (constant MAX_ENROLLMENT_RECORDS of
rest_api/v1/constants.py, which is not among the provided sources). The test
suite shows that 30 records exceed the limit and that the limit plus one
record draws a 413 response. -/
def MAX_ENROLLMENT_RECORDS : Nat := 25

/-- Modelled from the spec: the program enrollment statuses a write request may
set (ProgramResponseStatuses of rest_api/v1/constants.py, not among the
provided sources); the test suite exercises exactly these. -/
def programValidStatuses : List String := ["enrolled", "pending", "suspended", "canceled"]

/-- Modelled from the spec: the course enrollment statuses a write request may
set (ProgramCourseResponseStatuses of rest_api/v1/constants.py, not among the
provided sources). -/
def courseValidStatuses : List String := ["active", "inactive"]

/-- Status lookup in an enrollment store (first matching key). -/
def lookupStatus (store : Store) (key : String) : Option String :=
  match store with
  | [] => none
  | p :: rest => if p.1 == key then some p.2 else lookupStatus rest key

/-- Upsert of one enrollment row: overwrite the status stored for the key, or
append a new row when the key is absent. -/
def setStatus (store : Store) (key status : String) : Store :=
  match store with
  | [] => [(key, status)]
  | p :: rest =>
      if p.1 == key then (key, status) :: rest
      else p :: setStatus rest key status

/-- Number of request records carrying the given student key. -/
def countKey (records : List ReqRecord) (key : String) : Nat :=
  (records.filter (fun r => r.1 == key)).length

/-- Modelled from the spec: per-record outcome of a program enrollments bulk
write (ProgramEnrollmentsView of rest_api/v1/views.py, not among the provided
sources). A student key submitted more than once is reported "duplicated"; an
unknown requested status is "invalid-status"; POST reports "conflict" for an
already-enrolled key; PATCH reports "not-in-program" for an unknown key; PUT
is an unconditional upsert. Otherwise the outcome is the requested status,
which is also applied to the store. -/
def programRecordOutcome (m : Method) (store : Store) (records : List ReqRecord)
    (r : ReqRecord) : String :=
  if 2 ≤ countKey records r.1 then "duplicated"
  else if programValidStatuses.contains r.2 then
    match m with
    | .post => if (lookupStatus store r.1).isSome then "conflict" else r.2
    | .patch => if (lookupStatus store r.1).isSome then r.2 else "not-in-program"
    | .put => r.2
  else "invalid-status"

/-- Store backing the program-course enrollments endpoint: the set of student
keys enrolled in the program, and the course enrollment statuses. -/
structure CourseStore where
  programKeys : List String
  enrollments : Store
deriving DecidableEq, Repr

/-- Modelled from the spec: per-record outcome of a program-course enrollments
bulk write (ProgramCourseEnrollmentsView of rest_api/v1/views.py, not among
the provided sources). Duplicated keys are "duplicated"; unknown statuses are
"invalid-status"; keys without a program enrollment are "not-in-program";
POST reports "conflict" when a course enrollment already exists; PATCH
reports "not-found" when none exists; PUT is an upsert. -/
def courseRecordOutcome (m : Method) (cs : CourseStore) (records : List ReqRecord)
    (r : ReqRecord) : String :=
  if 2 ≤ countKey records r.1 then "duplicated"
  else if courseValidStatuses.contains r.2 then
    if cs.programKeys.contains r.1 then
      match m with
      | .post => if (lookupStatus cs.enrollments r.1).isSome then "conflict" else r.2
      | .patch => if (lookupStatus cs.enrollments r.1).isSome then r.2 else "not-found"
      | .put => r.2
    else "not-in-program"
  else "invalid-status"

/-- Apply a bulk write to the store: exactly the records whose outcome is a
valid enrollment status are applied, in request order. -/
def applyRecords (valid : List String) (f : ReqRecord → String) (store : Store)
    (records : List ReqRecord) : Store :=
  (records.filter (fun r => valid.contains (f r))).foldl
    (fun s r => setStatus s r.1 r.2) store

/-- Helper of the response dictionary: keep the first entry for each key. -/
def dedupAux (acc : List (String × String)) : List (String × String) → List (String × String)
  | [] => acc
  | p :: rest =>
      if (lookupStatus acc p.1).isSome then dedupAux acc rest
      else dedupAux (acc ++ [p]) rest

/-- The response body of a bulk write: a dictionary mapping each submitted
student key to its per-record outcome. -/
def buildResults (f : ReqRecord → String) (records : List ReqRecord) :
    List (String × String) :=
  dedupAux [] (records.map (fun r => (r.1, f r)))

/-- Modelled from the spec: aggregation of per-record outcomes into the HTTP
response code of a bulk write ("multi-status partial-failure responses"):
the success code when every record was applied, 207 Multi-Status for a mix of
applied and rejected records, 422 Unprocessable Entity when no record was
applied. -/
def aggregateCode (success : Nat) (valid : List String) (outcomes : List String) : Nat :=
  if outcomes.any (fun o => valid.contains o) && outcomes.any (fun o => !(valid.contains o))
    then 207
  else if outcomes.any (fun o => valid.contains o) then success
  else 422

/-- An HTTP response of a bulk enrollment write: status code and the per-key
outcome dictionary. -/
structure Response where
  statusCode : Nat
  body : List (String × String)
deriving DecidableEq, Repr

/-- Success code of the program enrollments endpoint: 201 Created for POST,
200 OK for PATCH and PUT. -/
def programSuccessCode : Method → Nat
  | .post => 201
  | .patch => 200
  | .put => 200

/-- Modelled from the spec: the program enrollments bulk write endpoint
(ProgramEnrollmentsView POST/PATCH/PUT of rest_api/v1/views.py, not among the
provided sources). A request longer than MAX_ENROLLMENT_RECORDS is rejected
whole with 413 Request Entity Too Large; otherwise each record gets a
per-record outcome, valid records are applied to the store, and the response
code aggregates the outcomes. Curriculum handling of POST is omitted: the
store tracks the status per student key. -/
def programEnrollmentsWriteCore (m : Method) (store : Store)
    (records : List ReqRecord) : Response × Store :=
  if MAX_ENROLLMENT_RECORDS < records.length then (⟨413, []⟩, store)
  else
    (⟨aggregateCode (programSuccessCode m) programValidStatuses
        (records.map (programRecordOutcome m store records)),
      buildResults (programRecordOutcome m store records) records⟩,
      applyRecords programValidStatuses (programRecordOutcome m store records)
        store records)

/-- Modelled from the spec: the program-course enrollments bulk write endpoint
(ProgramCourseEnrollmentsView POST/PATCH/PUT of rest_api/v1/views.py, not
among the provided sources). Its success code is 200 for every method. -/
def courseEnrollmentsWriteCore (m : Method) (cs : CourseStore)
    (records : List ReqRecord) : Response × CourseStore :=
  if MAX_ENROLLMENT_RECORDS < records.length then (⟨413, []⟩, cs)
  else
    (⟨aggregateCode 200 courseValidStatuses
        (records.map (courseRecordOutcome m cs records)),
      buildResults (courseRecordOutcome m cs records) records⟩,
      { cs with
          enrollments := applyRecords courseValidStatuses
            (courseRecordOutcome m cs records) cs.enrollments records })

/-- A raw enrollment record of the request payload: the declared fields
student_key and status, plus any unknown extra fields. -/
structure EnrollmentRecord where
  studentKey : String
  status : String
  extra : List (String × String)
deriving DecidableEq, Repr

/-- Modelled from the spec: the request serializer keeps exactly the declared
fields student_key and status of each record; unknown extra fields are
dropped. -/
def serializeRecord (r : EnrollmentRecord) : ReqRecord := (r.studentKey, r.status)

/-- The program enrollments endpoint on raw request records: serialization
followed by the core handler. -/
def programEnrollmentsView (m : Method) (store : Store)
    (records : List EnrollmentRecord) : Response × Store :=
  programEnrollmentsWriteCore m store (records.map serializeRecord)

/-- The program-course enrollments endpoint on raw request records. -/
def programCourseEnrollmentsView (m : Method) (cs : CourseStore)
    (records : List EnrollmentRecord) : Response × CourseStore :=
  courseEnrollmentsWriteCore m cs (records.map serializeRecord)

example :
    programEnrollmentsWriteCore .patch
      [("user-0", "pending"), ("user-1", "pending"), ("user-2", "pending"), ("user-3", "pending")]
      [("user-1", "new"), ("user-3", "canceled"), ("user-who-is-not-in-program", "enrolled")]
    = (⟨207, [("user-1", "invalid-status"), ("user-3", "canceled"),
              ("user-who-is-not-in-program", "not-in-program")]⟩,
       [("user-0", "pending"), ("user-1", "pending"), ("user-2", "pending"), ("user-3", "canceled")]) := by
  decide

example :
    programEnrollmentsWriteCore .patch
      [("user-0", "pending"), ("user-1", "pending"), ("user-2", "pending"), ("user-3", "pending")]
      [("user-1", "enrolled"), ("user-2", "enrolled"), ("user-1", "enrolled")]
    = (⟨207, [("user-1", "duplicated"), ("user-2", "enrolled")]⟩,
       [("user-0", "pending"), ("user-1", "pending"), ("user-2", "enrolled"), ("user-3", "pending")]) := by
  decide

example :
    programEnrollmentsWriteCore .post [] [("001", "enrolled"), ("001", "enrolled")]
    = (⟨422, [("001", "duplicated")]⟩, []) := by
  decide

example :
    courseEnrollmentsWriteCore .post ⟨["learner-1"], []⟩
      [("learner-1", "active"), ("learner-2", "active")]
    = (⟨207, [("learner-1", "active"), ("learner-2", "not-in-program")]⟩,
       ⟨["learner-1"], [("learner-1", "active")]⟩) := by
  decide

example :
    courseEnrollmentsWriteCore .patch ⟨[], []⟩ [("learner-1", "this-is-not-a-status")]
    = (⟨422, [("learner-1", "invalid-status")]⟩, ⟨[], []⟩) := by
  decide

example :
    courseEnrollmentsWriteCore .put ⟨["learner-1"], []⟩ [("learner-1", "active")]
    = (⟨200, [("learner-1", "active")]⟩, ⟨["learner-1"], [("learner-1", "active")]⟩) := by
  decide

/-! Helper lemmas about the store and the response dictionary. -/

theorem lookup_setStatus_self (s : Store) (k v : String) :
    lookupStatus (setStatus s k v) k = some v := by
  induction s with
  | nil => simp [setStatus, lookupStatus]
  | cons p rest ih =>
      by_cases h : p.1 = k
      · simp [setStatus, h, lookupStatus]
      · have hb : (p.1 == k) = false := by simpa using h
        simp [setStatus, hb, lookupStatus, ih]

theorem lookup_setStatus_ne (s : Store) (k v q : String) (h : q ≠ k) :
    lookupStatus (setStatus s k v) q = lookupStatus s q := by
  induction s with
  | nil =>
      have hb : (k == q) = false := by simpa using (Ne.symm h)
      simp [setStatus, lookupStatus, hb]
  | cons p rest ih =>
      by_cases hp : p.1 = k
      · have hb : (k == q) = false := by simpa using (Ne.symm h)
        have hpq : (p.1 == q) = false := by simpa [hp] using (Ne.symm h)
        simp [setStatus, hp, lookupStatus, hb, hpq]
      · have hpb : (p.1 == k) = false := by simpa using hp
        by_cases hq : p.1 = q
        · have hqk : (q == k) = false := by simpa using h
          simp [setStatus, hpb, lookupStatus, hq, hqk]
        · have hqb : (p.1 == q) = false := by simpa using hq
          simp [setStatus, hpb, lookupStatus, hqb, ih]

theorem foldl_set_preserve (l : List ReqRecord) (s : Store) (k : String)
    (h : l.filter (fun p => p.1 == k) = []) :
    lookupStatus (l.foldl (fun st p => setStatus st p.1 p.2) s) k = lookupStatus s k := by
  induction l generalizing s with
  | nil => rfl
  | cons p t ih =>
      have hcond : ∀ a ∈ p :: t, (a.1 == k) = false := by
        intro a ha
        have := List.filter_eq_nil_iff.mp h a ha
        simpa using this
      have hp : (p.1 == k) = false := hcond p (List.mem_cons_self p t)
      have ht : t.filter (fun p => p.1 == k) = [] := by
        apply List.filter_eq_nil_iff.mpr
        intro a ha
        simp [hcond a (List.mem_cons_of_mem p ha)]
      have hne : k ≠ p.1 := by
        intro hkp
        simp [hkp] at hp
      calc lookupStatus ((p :: t).foldl (fun st p => setStatus st p.1 p.2) s) k
          = lookupStatus (t.foldl (fun st p => setStatus st p.1 p.2) (setStatus s p.1 p.2)) k := by
            rfl
        _ = lookupStatus (setStatus s p.1 p.2) k := ih _ ht
        _ = lookupStatus s k := lookup_setStatus_ne s p.1 p.2 k hne

theorem foldl_set_lookup (l : List ReqRecord) (s : Store) (k v : String)
    (h : l.filter (fun p => p.1 == k) = [(k, v)]) :
    lookupStatus (l.foldl (fun st p => setStatus st p.1 p.2) s) k = some v := by
  induction l generalizing s with
  | nil => simp at h
  | cons p t ih =>
      by_cases hp : (p.1 == k) = true
      · have hfil : List.filter (fun p => p.1 == k) (p :: t)
            = p :: t.filter (fun p => p.1 == k) := by
          simp [List.filter_cons, hp]
        rw [hfil] at h
        have hpv : p = (k, v) := by
          have := List.head_eq_of_cons_eq h
          exact this
        have ht : t.filter (fun p => p.1 == k) = [] := List.tail_eq_of_cons_eq h
        calc lookupStatus ((p :: t).foldl (fun st p => setStatus st p.1 p.2) s) k
            = lookupStatus (t.foldl (fun st p => setStatus st p.1 p.2) (setStatus s p.1 p.2)) k := by
              rfl
          _ = lookupStatus (setStatus s p.1 p.2) k := foldl_set_preserve t _ k ht
          _ = some v := by rw [hpv]; exact lookup_setStatus_self s k v
      · have hpf : (p.1 == k) = false := by simpa using hp
        have hfil : List.filter (fun p => p.1 == k) (p :: t)
            = t.filter (fun p => p.1 == k) := by
          simp [List.filter_cons, hpf]
        rw [hfil] at h
        exact ih _ h

/-- Disjunction of optional lookup results, first one wins. -/
def optOr : Option String → Option String → Option String
  | some v, _ => some v
  | none, o => o

theorem lookup_append (l₁ l₂ : Store) (k : String) :
    lookupStatus (l₁ ++ l₂) k = optOr (lookupStatus l₁ k) (lookupStatus l₂ k) := by
  induction l₁ with
  | nil => simp [lookupStatus, optOr]
  | cons p t ih =>
      by_cases hp : (p.1 == k) = true
      · simp [lookupStatus, hp, optOr]
      · have hpf : (p.1 == k) = false := by simpa using hp
        simp [lookupStatus, hpf, ih]

theorem dedupAux_lookup (l acc : List (String × String)) (k : String) :
    lookupStatus (dedupAux acc l) k = optOr (lookupStatus acc k) (lookupStatus l k) := by
  induction l generalizing acc with
  | nil =>
      cases h : lookupStatus acc k <;> simp [dedupAux, lookupStatus, optOr, h]
  | cons p t ih =>
      by_cases hs : (lookupStatus acc p.1).isSome = true
      · have : dedupAux acc (p :: t) = dedupAux acc t := by
          simp [dedupAux, hs]
        rw [this, ih]
        by_cases hk : p.1 = k
        · obtain ⟨v, hv⟩ := Option.isSome_iff_exists.mp hs
          rw [hk] at hv
          simp [optOr, hv, lookupStatus]
        · have hkb : (p.1 == k) = false := by simpa using hk
          simp [lookupStatus, hkb]
      · have hsf : (lookupStatus acc p.1).isSome = false := by simpa using hs
        have : dedupAux acc (p :: t) = dedupAux (acc ++ [p]) t := by
          simp [dedupAux, hsf]
        rw [this, ih, lookup_append]
        by_cases hk : p.1 = k
        · have hnone : lookupStatus acc k = none := by
            rw [← hk]
            exact Option.not_isSome_iff_eq_none.mp (by simp [hsf])
          have hkb : (p.1 == k) = true := by simpa using hk
          simp [hnone, optOr, lookupStatus, hkb]
        · have hkb : (p.1 == k) = false := by simpa using hk
          cases h : lookupStatus acc k <;> simp [optOr, lookupStatus, hkb, h]

theorem dedupAux_mem (l acc : List (String × String)) (p : String × String)
    (hp : p ∈ dedupAux acc l) : p ∈ acc ∨ p ∈ l := by
  induction l generalizing acc with
  | nil => exact Or.inl (by simpa [dedupAux] using hp)
  | cons q t ih =>
      by_cases hs : (lookupStatus acc q.1).isSome = true
      · have : dedupAux acc (q :: t) = dedupAux acc t := by simp [dedupAux, hs]
        rw [this] at hp
        rcases ih acc hp with h | h
        · exact Or.inl h
        · exact Or.inr (List.mem_cons_of_mem q h)
      · have hsf : (lookupStatus acc q.1).isSome = false := by simpa using hs
        have : dedupAux acc (q :: t) = dedupAux (acc ++ [q]) t := by simp [dedupAux, hsf]
        rw [this] at hp
        rcases ih (acc ++ [q]) hp with h | h
        · rcases List.mem_append.mp h with h₁ | h₁
          · exact Or.inl h₁
          · have : p = q := by simpa using h₁
            exact Or.inr (this ▸ List.mem_cons_self q t)
        · exact Or.inr (List.mem_cons_of_mem q h)

/-! Key-counting lemmas: duplicate detection and uniqueness of applied keys. -/

theorem two_le_length_of_two_mem {α : Type} (l : List α) (a b : α)
    (ha : a ∈ l) (hb : b ∈ l) (hne : a ≠ b) : 2 ≤ l.length := by
  induction l with
  | nil => cases ha
  | cons x t ih =>
      rcases List.mem_cons.mp ha with hax | hat
      · have hbt : b ∈ t := by
          rcases List.mem_cons.mp hb with hbx | hbt
          · exact absurd (hax.trans hbx.symm) hne
          · exact hbt
        have : 1 ≤ t.length := List.length_pos.mpr (List.ne_nil_of_mem hbt)
        simp [List.length_cons]
        omega
      · have : 1 ≤ t.length := List.length_pos.mpr (List.ne_nil_of_mem hat)
        simp [List.length_cons]
        omega

theorem two_mem_countKey (l : List ReqRecord) (a b : ReqRecord)
    (ha : a ∈ l) (hb : b ∈ l) (hne : a ≠ b) (hkey : a.1 = b.1) :
    2 ≤ countKey l a.1 := by
  have haf : a ∈ l.filter (fun r => r.1 == a.1) :=
    List.mem_filter.mpr ⟨ha, by simp⟩
  have hbf : b ∈ l.filter (fun r => r.1 == a.1) :=
    List.mem_filter.mpr ⟨hb, by simp [hkey]⟩
  exact two_le_length_of_two_mem _ a b haf hbf hne

theorem filter_key_singleton (l : List ReqRecord) (r : ReqRecord)
    (hr : r ∈ l) (hc : countKey l r.1 ≤ 1) :
    l.filter (fun p => p.1 == r.1) = [r] := by
  have hmem : r ∈ l.filter (fun p => p.1 == r.1) :=
    List.mem_filter.mpr ⟨hr, by simp⟩
  unfold countKey at hc
  cases hfil : l.filter (fun p => p.1 == r.1) with
  | nil => rw [hfil] at hmem; cases hmem
  | cons x t =>
      rw [hfil] at hc hmem
      have ht : t = [] := by
        have := List.length_cons x t ▸ hc
        exact List.length_eq_zero.mp (by omega)
      subst ht
      have : r = x := by simpa using hmem
      simp [this]

/-! Lemmas about the store after a bulk write. -/

theorem applyRecords_lookup_applied (valid : List String) (f : ReqRecord → String)
    (store : Store) (records : List ReqRecord)
    (hkd : ∀ a ∈ records, valid.contains (f a) = true → countKey records a.1 ≤ 1)
    (r : ReqRecord) (hr : r ∈ records) (happ : valid.contains (f r) = true) :
    lookupStatus (applyRecords valid f store records) r.1 = some r.2 := by
  have hsing : records.filter (fun p => p.1 == r.1) = [r] :=
    filter_key_singleton records r hr (hkd r hr happ)
  have hswap :
      (records.filter (fun a => valid.contains (f a))).filter (fun p => p.1 == r.1)
        = (records.filter (fun p => p.1 == r.1)).filter (fun a => valid.contains (f a)) := by
    simp [List.filter_filter, Bool.and_comm]
  have hfil :
      (records.filter (fun a => valid.contains (f a))).filter (fun p => p.1 == r.1)
        = [r] := by
    rw [hswap, hsing]
    have hmem : f r ∈ valid := by simpa using happ
    simp [List.filter_cons, hmem]
  unfold applyRecords
  exact foldl_set_lookup _ store r.1 r.2 (by simpa using hfil)

theorem applyRecords_lookup_rejected (valid : List String) (f : ReqRecord → String)
    (store : Store) (records : List ReqRecord)
    (hkd : ∀ a ∈ records, valid.contains (f a) = true → countKey records a.1 ≤ 1)
    (r : ReqRecord) (hr : r ∈ records) (hrej : valid.contains (f r) = false) :
    lookupStatus (applyRecords valid f store records) r.1 = lookupStatus store r.1 := by
  have hfil :
      (records.filter (fun a => valid.contains (f a))).filter (fun p => p.1 == r.1) = [] := by
    apply List.eq_nil_iff_forall_not_mem.mpr
    intro a hmem
    have h₁ := List.mem_filter.mp hmem
    have h₂ := List.mem_filter.mp h₁.1
    have hak : a.1 = r.1 := by simpa using h₁.2
    have hasing : records.filter (fun p => p.1 == a.1) = [a] :=
      filter_key_singleton records a h₂.1 (hkd a h₂.1 h₂.2)
    have hrmem : r ∈ records.filter (fun p => p.1 == a.1) :=
      List.mem_filter.mpr ⟨hr, by simp [hak]⟩
    rw [hasing] at hrmem
    have : r = a := by simpa using hrmem
    rw [this] at hrej
    rw [h₂.2] at hrej
    cases hrej
  unfold applyRecords
  exact foldl_set_preserve _ store r.1 (by simpa using hfil)

theorem applyRecords_lookup_fresh (valid : List String) (f : ReqRecord → String)
    (store : Store) (records : List ReqRecord) (key : String)
    (hkey : ∀ r ∈ records, r.1 ≠ key) :
    lookupStatus (applyRecords valid f store records) key = lookupStatus store key := by
  have hfil :
      (records.filter (fun a => valid.contains (f a))).filter (fun p => p.1 == key) = [] := by
    apply List.eq_nil_iff_forall_not_mem.mpr
    intro a hmem
    have h₁ := List.mem_filter.mp hmem
    have h₂ := List.mem_filter.mp h₁.1
    have hak : a.1 = key := by simpa using h₁.2
    exact hkey a h₂.1 hak
  unfold applyRecords
  exact foldl_set_preserve _ store key (by simpa using hfil)

/-! Lemmas about the response dictionary. -/

theorem lookup_map_of_key_det (f : ReqRecord → String) (records : List ReqRecord)
    (hdet : ∀ a ∈ records, ∀ b ∈ records, a.1 = b.1 → f a = f b)
    (r : ReqRecord) (hr : r ∈ records) :
    lookupStatus (records.map (fun x => (x.1, f x))) r.1 = some (f r) := by
  induction records with
  | nil => cases hr
  | cons x t ih =>
      by_cases hx : x.1 = r.1
      · have : f x = f r :=
          hdet x (List.mem_cons_self x t) r hr hx
        simp [lookupStatus, hx, this]
      · have hxb : (x.1 == r.1) = false := by simpa using hx
        have hrt : r ∈ t := by
          rcases List.mem_cons.mp hr with hrx | hrt
          · exact absurd (hrx ▸ rfl) hx
          · exact hrt
        have hdet' : ∀ a ∈ t, ∀ b ∈ t, a.1 = b.1 → f a = f b := by
          intro a ha b hb
          exact hdet a (List.mem_cons_of_mem x ha) b (List.mem_cons_of_mem x hb)
        simp only [List.map_cons, lookupStatus, hxb]
        simpa using ih hdet' hrt

theorem buildResults_lookup (f : ReqRecord → String) (records : List ReqRecord)
    (hdet : ∀ a ∈ records, ∀ b ∈ records, a.1 = b.1 → f a = f b)
    (r : ReqRecord) (hr : r ∈ records) :
    lookupStatus (buildResults f records) r.1 = some (f r) := by
  unfold buildResults
  rw [dedupAux_lookup]
  simp only [lookupStatus, optOr]
  exact lookup_map_of_key_det f records hdet r hr

theorem buildResults_mem (f : ReqRecord → String) (records : List ReqRecord)
    (p : String × String) (hp : p ∈ buildResults f records) :
    ∃ r ∈ records, p.1 = r.1 ∧ p.2 = f r := by
  unfold buildResults at hp
  rcases dedupAux_mem _ [] p hp with h | h
  · cases h
  · rcases List.mem_map.mp h with ⟨r, hr, hrp⟩
    exact ⟨r, hr, by rw [← hrp], by rw [← hrp]⟩

/-! Facts about the per-record outcome functions. -/

theorem programRecordOutcome_dup (m : Method) (store : Store)
    (records : List ReqRecord) (r : ReqRecord) (h : 2 ≤ countKey records r.1) :
    programRecordOutcome m store records r = "duplicated" := by
  simp [programRecordOutcome, h]

theorem courseRecordOutcome_dup (m : Method) (cs : CourseStore)
    (records : List ReqRecord) (r : ReqRecord) (h : 2 ≤ countKey records r.1) :
    courseRecordOutcome m cs records r = "duplicated" := by
  simp [courseRecordOutcome, h]

theorem programRecordOutcome_applied_facts (m : Method) (store : Store)
    (records : List ReqRecord) (r : ReqRecord)
    (hp : programValidStatuses.contains (programRecordOutcome m store records r) = true) :
    countKey records r.1 ≤ 1 ∧ programRecordOutcome m store records r = r.2 := by
  have hd : ¬ 2 ≤ countKey records r.1 := by
    intro h2
    rw [programRecordOutcome_dup m store records r h2] at hp
    exact absurd hp (by decide)
  refine ⟨by omega, ?_⟩
  cases m with
  | post =>
      simp only [programRecordOutcome, if_neg hd] at hp ⊢
      by_cases hv : programValidStatuses.contains r.2 = true
      · rw [if_pos hv] at hp ⊢
        by_cases hs : (lookupStatus store r.1).isSome = true
        · rw [if_pos hs] at hp; exact absurd hp (by decide)
        · rw [if_neg hs]
      · rw [if_neg hv] at hp; exact absurd hp (by decide)
  | patch =>
      simp only [programRecordOutcome, if_neg hd] at hp ⊢
      by_cases hv : programValidStatuses.contains r.2 = true
      · rw [if_pos hv] at hp ⊢
        by_cases hs : (lookupStatus store r.1).isSome = true
        · rw [if_pos hs]
        · rw [if_neg hs] at hp; exact absurd hp (by decide)
      · rw [if_neg hv] at hp; exact absurd hp (by decide)
  | put =>
      simp only [programRecordOutcome, if_neg hd] at hp ⊢
      by_cases hv : programValidStatuses.contains r.2 = true
      · rw [if_pos hv]
      · rw [if_neg hv] at hp; exact absurd hp (by decide)

theorem courseRecordOutcome_applied_facts (m : Method) (cs : CourseStore)
    (records : List ReqRecord) (r : ReqRecord)
    (hp : courseValidStatuses.contains (courseRecordOutcome m cs records r) = true) :
    countKey records r.1 ≤ 1 ∧ courseRecordOutcome m cs records r = r.2 := by
  have hd : ¬ 2 ≤ countKey records r.1 := by
    intro h2
    rw [courseRecordOutcome_dup m cs records r h2] at hp
    exact absurd hp (by decide)
  refine ⟨by omega, ?_⟩
  cases m with
  | post =>
      simp only [courseRecordOutcome, if_neg hd] at hp ⊢
      by_cases hv : courseValidStatuses.contains r.2 = true
      · rw [if_pos hv] at hp ⊢
        by_cases hpk : cs.programKeys.contains r.1 = true
        · rw [if_pos hpk] at hp ⊢
          by_cases hs : (lookupStatus cs.enrollments r.1).isSome = true
          · rw [if_pos hs] at hp; exact absurd hp (by decide)
          · rw [if_neg hs]
        · rw [if_neg hpk] at hp; exact absurd hp (by decide)
      · rw [if_neg hv] at hp; exact absurd hp (by decide)
  | patch =>
      simp only [courseRecordOutcome, if_neg hd] at hp ⊢
      by_cases hv : courseValidStatuses.contains r.2 = true
      · rw [if_pos hv] at hp ⊢
        by_cases hpk : cs.programKeys.contains r.1 = true
        · rw [if_pos hpk] at hp ⊢
          by_cases hs : (lookupStatus cs.enrollments r.1).isSome = true
          · rw [if_pos hs]
          · rw [if_neg hs] at hp; exact absurd hp (by decide)
        · rw [if_neg hpk] at hp; exact absurd hp (by decide)
      · rw [if_neg hv] at hp; exact absurd hp (by decide)
  | put =>
      simp only [courseRecordOutcome, if_neg hd] at hp ⊢
      by_cases hv : courseValidStatuses.contains r.2 = true
      · rw [if_pos hv] at hp ⊢
        by_cases hpk : cs.programKeys.contains r.1 = true
        · rw [if_pos hpk]
        · rw [if_neg hpk] at hp; exact absurd hp (by decide)
      · rw [if_neg hv] at hp; exact absurd hp (by decide)

theorem programRecordOutcome_key_det (m : Method) (store : Store)
    (records : List ReqRecord) :
    ∀ a ∈ records, ∀ b ∈ records, a.1 = b.1 →
      programRecordOutcome m store records a = programRecordOutcome m store records b := by
  intro a ha b hb hk
  by_cases hab : a = b
  · rw [hab]
  · have h2 : 2 ≤ countKey records a.1 := two_mem_countKey records a b ha hb hab hk
    rw [programRecordOutcome_dup m store records a h2,
      programRecordOutcome_dup m store records b (hk ▸ h2)]

theorem courseRecordOutcome_key_det (m : Method) (cs : CourseStore)
    (records : List ReqRecord) :
    ∀ a ∈ records, ∀ b ∈ records, a.1 = b.1 →
      courseRecordOutcome m cs records a = courseRecordOutcome m cs records b := by
  intro a ha b hb hk
  by_cases hab : a = b
  · rw [hab]
  · have h2 : 2 ≤ countKey records a.1 := two_mem_countKey records a b ha hb hab hk
    rw [courseRecordOutcome_dup m cs records a h2,
      courseRecordOutcome_dup m cs records b (hk ▸ h2)]

/-! Lemmas about the aggregated response code. -/

theorem aggregateCode_mixed (success : Nat) (valid : List String)
    (outcomes : List String)
    (hg : outcomes.any (fun o => valid.contains o) = true)
    (hb : outcomes.any (fun o => !(valid.contains o)) = true) :
    aggregateCode success valid outcomes = 207 := by
  unfold aggregateCode
  rw [hg, hb]
  rfl

theorem aggregateCode_all_good (success : Nat) (valid : List String)
    (outcomes : List String)
    (hg : outcomes.any (fun o => valid.contains o) = true)
    (hb : outcomes.any (fun o => !(valid.contains o)) = false) :
    aggregateCode success valid outcomes = success := by
  unfold aggregateCode
  rw [hg, hb]
  rfl

theorem aggregateCode_none_good (success : Nat) (valid : List String)
    (outcomes : List String)
    (hg : outcomes.any (fun o => valid.contains o) = false) :
    aggregateCode success valid outcomes = 422 := by
  unfold aggregateCode
  rw [hg]
  rfl

theorem countKey_pos_exists (records : List ReqRecord) (k : String)
    (h : 1 ≤ countKey records k) : ∃ r ∈ records, r.1 = k := by
  unfold countKey at h
  have hne : records.filter (fun r => r.1 == k) ≠ [] := by
    intro hnil
    rw [hnil] at h
    simp at h
  obtain ⟨r, hr⟩ := List.exists_mem_of_ne_nil _ hne
  have := List.mem_filter.mp hr
  exact ⟨r, this.1, by simpa using this.2⟩

/-! Reduction of the handlers below the payload limit. -/

theorem programWrite_eq (m : Method) (store : Store) (records : List ReqRecord)
    (h : records.length ≤ MAX_ENROLLMENT_RECORDS) :
    programEnrollmentsWriteCore m store records =
      (⟨aggregateCode (programSuccessCode m) programValidStatuses
          (records.map (programRecordOutcome m store records)),
        buildResults (programRecordOutcome m store records) records⟩,
        applyRecords programValidStatuses (programRecordOutcome m store records)
          store records) := by
  unfold programEnrollmentsWriteCore
  rw [if_neg (Nat.not_lt.mpr h)]

theorem courseWrite_eq (m : Method) (cs : CourseStore) (records : List ReqRecord)
    (h : records.length ≤ MAX_ENROLLMENT_RECORDS) :
    courseEnrollmentsWriteCore m cs records =
      (⟨aggregateCode 200 courseValidStatuses
          (records.map (courseRecordOutcome m cs records)),
        buildResults (courseRecordOutcome m cs records) records⟩,
        { cs with
            enrollments := applyRecords courseValidStatuses
              (courseRecordOutcome m cs records) cs.enrollments records }) := by
  unfold courseEnrollmentsWriteCore
  rw [if_neg (Nat.not_lt.mpr h)]

theorem any_map_good (valid : List String) (f : ReqRecord → String)
    (records : List ReqRecord) (r : ReqRecord) (hr : r ∈ records)
    (h : valid.contains (f r) = true) :
    (records.map f).any (fun o => valid.contains o) = true :=
  List.any_eq_true.mpr ⟨f r, List.mem_map_of_mem f hr, h⟩

theorem any_map_bad (valid : List String) (f : ReqRecord → String)
    (records : List ReqRecord) (r : ReqRecord) (hr : r ∈ records)
    (h : valid.contains (f r) = false) :
    (records.map f).any (fun o => !(valid.contains o)) = true :=
  List.any_eq_true.mpr ⟨f r, List.mem_map_of_mem f hr, by simp; simpa using h⟩

theorem any_map_no_bad (valid : List String) (f : ReqRecord → String)
    (records : List ReqRecord)
    (h : ∀ r ∈ records, valid.contains (f r) = true) :
    (records.map f).any (fun o => !(valid.contains o)) = false := by
  apply List.any_eq_false.mpr
  intro o ho
  obtain ⟨r, hr, hro⟩ := List.mem_map.mp ho
  simp [← hro]
  simpa using h r hr

theorem any_map_no_good (valid : List String) (f : ReqRecord → String)
    (records : List ReqRecord)
    (h : ∀ r ∈ records, valid.contains (f r) = false) :
    (records.map f).any (fun o => valid.contains o) = false := by
  apply List.any_eq_false.mpr
  intro o ho
  obtain ⟨r, hr, hro⟩ := List.mem_map.mp ho
  simp [← hro]
  simpa using h r hr

/-- Claim C1: for every bulk program-enrollment write request (POST, PATCH or
PUT) whose records are a mix of applied and rejected ones, the response is
207 Multi-Status, its body maps each submitted student key to the per-record
outcome of that record (the requested status for applied records, an error code
such as invalid-status or not-in-program for rejected ones), the status change of every
applied record is in the resulting store, and every rejected record leaves
the stored status of its key unchanged. -/
theorem C1_program_write_mixed_multistatus (m : Method) (store : Store)
    (records : List ReqRecord)
    (hlen : records.length ≤ MAX_ENROLLMENT_RECORDS)
    (hgood : ∃ r ∈ records,
      programValidStatuses.contains (programRecordOutcome m store records r) = true)
    (hbad : ∃ r ∈ records,
      programValidStatuses.contains (programRecordOutcome m store records r) = false) :
    (programEnrollmentsWriteCore m store records).1.statusCode = 207
    ∧ (∀ r ∈ records,
        lookupStatus (programEnrollmentsWriteCore m store records).1.body r.1
          = some (programRecordOutcome m store records r))
    ∧ (∀ r ∈ records,
        programValidStatuses.contains (programRecordOutcome m store records r) = true →
        lookupStatus (programEnrollmentsWriteCore m store records).2 r.1 = some r.2)
    ∧ (∀ r ∈ records,
        programValidStatuses.contains (programRecordOutcome m store records r) = false →
        lookupStatus (programEnrollmentsWriteCore m store records).2 r.1
          = lookupStatus store r.1) := by
  rw [programWrite_eq m store records hlen]
  obtain ⟨rg, hrg, hg⟩ := hgood
  obtain ⟨rb, hrb, hb⟩ := hbad
  have hkd : ∀ a ∈ records,
      programValidStatuses.contains (programRecordOutcome m store records a) = true →
      countKey records a.1 ≤ 1 :=
    fun a ha h => (programRecordOutcome_applied_facts m store records a h).1
  refine ⟨?_, ?_, ?_, ?_⟩
  · exact aggregateCode_mixed _ _ _
      (any_map_good _ _ _ rg hrg hg) (any_map_bad _ _ _ rb hrb hb)
  · intro r hr
    exact buildResults_lookup _ records
      (programRecordOutcome_key_det m store records) r hr
  · intro r hr happ
    have heq := (programRecordOutcome_applied_facts m store records r happ).2
    exact applyRecords_lookup_applied _ _ store records hkd r hr happ
  · intro r hr hrej
    exact applyRecords_lookup_rejected _ _ store records hkd r hr hrej

/-- Witness for C1 at the inputs of the test
ProgramEnrollmentsPatchTests.test_partially_valid_enrollment_record_changed. -/
theorem C1_program_write_mixed_multistatus_witness :
    ([(("user-1", "new") : ReqRecord), ("user-3", "canceled"),
        ("user-who-is-not-in-program", "enrolled")].length ≤ MAX_ENROLLMENT_RECORDS)
    ∧ ((programEnrollmentsWriteCore .patch
          [("user-0", "pending"), ("user-1", "pending"), ("user-2", "pending"),
            ("user-3", "pending")]
          [("user-1", "new"), ("user-3", "canceled"),
            ("user-who-is-not-in-program", "enrolled")]).1.statusCode = 207) := by
  refine ⟨by decide, ?_⟩
  exact (C1_program_write_mixed_multistatus .patch
    [("user-0", "pending"), ("user-1", "pending"), ("user-2", "pending"),
      ("user-3", "pending")]
    [("user-1", "new"), ("user-3", "canceled"),
      ("user-who-is-not-in-program", "enrolled")]
    (by decide)
    ⟨("user-3", "canceled"), by decide, by decide⟩
    ⟨("user-1", "new"), by decide, by decide⟩).1

/-- Claim C2: for every bulk enrollment write request (program or
program-course endpoint, any of POST/PATCH/PUT) in which two records carry
the same student key, every record with that key is rejected: its per-record
outcome is "duplicated", the response body maps that key to "duplicated",
the stored status for that key is unchanged, and when no record in the
request succeeds the response status is 422 Unprocessable Entity. -/
theorem C2_duplicate_key_rejected (m : Method) (store : Store) (cs : CourseStore)
    (records : List ReqRecord) (k : String)
    (hlen : records.length ≤ MAX_ENROLLMENT_RECORDS)
    (hdup : 2 ≤ countKey records k) :
    (∀ r ∈ records, r.1 = k →
        programRecordOutcome m store records r = "duplicated"
        ∧ courseRecordOutcome m cs records r = "duplicated")
    ∧ lookupStatus (programEnrollmentsWriteCore m store records).1.body k
        = some "duplicated"
    ∧ lookupStatus (programEnrollmentsWriteCore m store records).2 k
        = lookupStatus store k
    ∧ lookupStatus (courseEnrollmentsWriteCore m cs records).1.body k
        = some "duplicated"
    ∧ lookupStatus (courseEnrollmentsWriteCore m cs records).2.enrollments k
        = lookupStatus cs.enrollments k
    ∧ ((∀ r ∈ records,
          programValidStatuses.contains (programRecordOutcome m store records r) = false) →
        (programEnrollmentsWriteCore m store records).1.statusCode = 422)
    ∧ ((∀ r ∈ records,
          courseValidStatuses.contains (courseRecordOutcome m cs records r) = false) →
        (courseEnrollmentsWriteCore m cs records).1.statusCode = 422) := by
  rw [programWrite_eq m store records hlen, courseWrite_eq m cs records hlen]
  obtain ⟨r₀, hr₀, hk₀⟩ := countKey_pos_exists records k (by omega)
  have hdup₀ : 2 ≤ countKey records r₀.1 := by rw [hk₀]; exact hdup
  have hpkd : ∀ a ∈ records,
      programValidStatuses.contains (programRecordOutcome m store records a) = true →
      countKey records a.1 ≤ 1 :=
    fun a ha h => (programRecordOutcome_applied_facts m store records a h).1
  have hckd : ∀ a ∈ records,
      courseValidStatuses.contains (courseRecordOutcome m cs records a) = true →
      countKey records a.1 ≤ 1 :=
    fun a ha h => (courseRecordOutcome_applied_facts m cs records a h).1
  have hprej : programValidStatuses.contains (programRecordOutcome m store records r₀) = false := by
    rw [programRecordOutcome_dup m store records r₀ hdup₀]
    decide
  have hcrej : courseValidStatuses.contains (courseRecordOutcome m cs records r₀) = false := by
    rw [courseRecordOutcome_dup m cs records r₀ hdup₀]
    decide
  refine ⟨?_, ?_, ?_, ?_, ?_, ?_, ?_⟩
  · intro r hr hrk
    have hdupr : 2 ≤ countKey records r.1 := by rw [hrk]; exact hdup
    exact ⟨programRecordOutcome_dup m store records r hdupr,
      courseRecordOutcome_dup m cs records r hdupr⟩
  · rw [← hk₀]
    rw [buildResults_lookup _ records (programRecordOutcome_key_det m store records) r₀ hr₀]
    rw [programRecordOutcome_dup m store records r₀ hdup₀]
  · rw [← hk₀]
    exact applyRecords_lookup_rejected _ _ store records hpkd r₀ hr₀ hprej
  · rw [← hk₀]
    rw [buildResults_lookup _ records (courseRecordOutcome_key_det m cs records) r₀ hr₀]
    rw [courseRecordOutcome_dup m cs records r₀ hdup₀]
  · rw [← hk₀]
    exact applyRecords_lookup_rejected _ _ cs.enrollments records hckd r₀ hr₀ hcrej
  · intro hall
    exact aggregateCode_none_good _ _ _ (any_map_no_good _ _ _ hall)
  · intro hall
    exact aggregateCode_none_good _ _ _ (any_map_no_good _ _ _ hall)

/-- Witness for C2 at the inputs of the tests
ProgramEnrollmentsWriteMixin.test_duplicate_enrollment and
ProgramCourseEnrollmentsMixin.test_duplicate_learner. -/
theorem C2_duplicate_key_rejected_witness :
    ([(("001", "enrolled") : ReqRecord), ("001", "enrolled")].length
        ≤ MAX_ENROLLMENT_RECORDS)
    ∧ (2 ≤ countKey [(("001", "enrolled") : ReqRecord), ("001", "enrolled")] "001")
    ∧ lookupStatus (programEnrollmentsWriteCore .post []
        [("001", "enrolled"), ("001", "enrolled")]).1.body "001" = some "duplicated" := by
  refine ⟨by decide, by decide, ?_⟩
  exact (C2_duplicate_key_rejected .post [] ⟨[], []⟩
    [("001", "enrolled"), ("001", "enrolled")] "001" (by decide) (by decide)).2.1

/-- Claim C4: every bulk enrollment write request whose record list exceeds
MAX_ENROLLMENT_RECORDS is answered 413 Request Entity Too Large by both the
program and the program-course endpoint, with no enrollment record applied;
30 records exceed the limit. -/
theorem C4_payload_limit_413 (m : Method) (store : Store) (cs : CourseStore)
    (records : List ReqRecord)
    (hlen : MAX_ENROLLMENT_RECORDS < records.length) :
    (programEnrollmentsWriteCore m store records).1.statusCode = 413
    ∧ (programEnrollmentsWriteCore m store records).2 = store
    ∧ (courseEnrollmentsWriteCore m cs records).1.statusCode = 413
    ∧ (courseEnrollmentsWriteCore m cs records).2 = cs
    ∧ MAX_ENROLLMENT_RECORDS < 30 := by
  unfold programEnrollmentsWriteCore courseEnrollmentsWriteCore
  rw [if_pos hlen, if_pos hlen]
  exact ⟨rfl, rfl, rfl, rfl, by decide⟩

/-- Witness for C4: a request of 30 identical records, as in
ProgramCourseEnrollmentsMixin.test_413_payload_too_large. -/
theorem C4_payload_limit_413_witness :
    (MAX_ENROLLMENT_RECORDS < (List.replicate 30 (("s", "active") : ReqRecord)).length)
    ∧ (programEnrollmentsWriteCore .post []
        (List.replicate 30 (("s", "active") : ReqRecord))).1.statusCode = 413 := by
  refine ⟨by decide, ?_⟩
  exact (C4_payload_limit_413 .post [] ⟨[], []⟩
    (List.replicate 30 (("s", "active") : ReqRecord)) (by decide)).1

/-- Claim C6: for every successful PATCH to the program enrollments endpoint
(every record applied), exactly the enrollments whose student keys appear in
the request change to their requested status, every enrollment whose key does
not appear keeps its previous status, and the 200 response maps exactly the
requested keys to their new statuses. -/
theorem C6_patch_exact_update (store : Store) (records : List ReqRecord)
    (hlen : records.length ≤ MAX_ENROLLMENT_RECORDS)
    (hne : records ≠ [])
    (hall : ∀ r ∈ records,
      programValidStatuses.contains (programRecordOutcome .patch store records r) = true) :
    (programEnrollmentsWriteCore .patch store records).1.statusCode = 200
    ∧ (∀ r ∈ records,
        lookupStatus (programEnrollmentsWriteCore .patch store records).2 r.1 = some r.2)
    ∧ (∀ key, (∀ r ∈ records, r.1 ≠ key) →
        lookupStatus (programEnrollmentsWriteCore .patch store records).2 key
          = lookupStatus store key)
    ∧ (∀ r ∈ records,
        lookupStatus (programEnrollmentsWriteCore .patch store records).1.body r.1
          = some r.2)
    ∧ (∀ p ∈ (programEnrollmentsWriteCore .patch store records).1.body,
        ∃ r ∈ records, p.1 = r.1 ∧ p.2 = r.2) := by
  rw [programWrite_eq .patch store records hlen]
  obtain ⟨r₀, hr₀⟩ := List.exists_mem_of_ne_nil records hne
  have hkd : ∀ a ∈ records,
      programValidStatuses.contains (programRecordOutcome .patch store records a) = true →
      countKey records a.1 ≤ 1 :=
    fun a ha h => (programRecordOutcome_applied_facts .patch store records a h).1
  refine ⟨?_, ?_, ?_, ?_, ?_⟩
  · exact aggregateCode_all_good _ _ _
      (any_map_good _ _ _ r₀ hr₀ (hall r₀ hr₀)) (any_map_no_bad _ _ _ hall)
  · intro r hr
    exact applyRecords_lookup_applied _ _ store records hkd r hr (hall r hr)
  · intro key hkey
    exact applyRecords_lookup_fresh _ _ store records key hkey
  · intro r hr
    rw [buildResults_lookup _ records (programRecordOutcome_key_det .patch store records) r hr]
    rw [(programRecordOutcome_applied_facts .patch store records r (hall r hr)).2]
  · intro p hp
    obtain ⟨r, hr, hp₁, hp₂⟩ := buildResults_mem _ records p hp
    refine ⟨r, hr, hp₁, ?_⟩
    rw [hp₂, (programRecordOutcome_applied_facts .patch store records r (hall r hr)).2]

/-- Witness for C6 at the inputs of the test
ProgramEnrollmentsPatchTests.test_successfully_patched_program_enrollment. -/
theorem C6_patch_exact_update_witness :
    ([(("user-1", "canceled") : ReqRecord), ("user-2", "suspended"),
        ("user-3", "enrolled")].length ≤ MAX_ENROLLMENT_RECORDS)
    ∧ ([(("user-1", "canceled") : ReqRecord), ("user-2", "suspended"),
        ("user-3", "enrolled")] ≠ [])
    ∧ (programEnrollmentsWriteCore .patch
        [("user-0", "pending"), ("user-1", "pending"), ("user-2", "pending"),
          ("user-3", "pending")]
        [("user-1", "canceled"), ("user-2", "suspended"),
          ("user-3", "enrolled")]).1.statusCode = 200 := by
  refine ⟨by decide, by decide, ?_⟩
  exact (C6_patch_exact_update
    [("user-0", "pending"), ("user-1", "pending"), ("user-2", "pending"),
      ("user-3", "pending")]
    [("user-1", "canceled"), ("user-2", "suspended"), ("user-3", "enrolled")]
    (by decide) (by decide) (by decide)).1

/-- Claim C7: for every PUT to the program enrollments endpoint with valid
records (valid statuses, no duplicated keys), each record is an upsert: its
key ends up stored with the requested status whether or not an enrollment
existed before, and the 200 response maps every submitted key to the
requested status. -/
theorem C7_put_upsert (store : Store) (records : List ReqRecord)
    (hlen : records.length ≤ MAX_ENROLLMENT_RECORDS)
    (hne : records ≠ [])
    (hnodup : ∀ r ∈ records, countKey records r.1 ≤ 1)
    (hvalid : ∀ r ∈ records, programValidStatuses.contains r.2 = true) :
    (programEnrollmentsWriteCore .put store records).1.statusCode = 200
    ∧ (∀ r ∈ records,
        lookupStatus (programEnrollmentsWriteCore .put store records).2 r.1 = some r.2)
    ∧ (∀ r ∈ records,
        lookupStatus (programEnrollmentsWriteCore .put store records).1.body r.1
          = some r.2)
    ∧ (∀ p ∈ (programEnrollmentsWriteCore .put store records).1.body,
        ∃ r ∈ records, p.1 = r.1 ∧ p.2 = r.2) := by
  have hout : ∀ r ∈ records, programRecordOutcome .put store records r = r.2 := by
    intro r hr
    unfold programRecordOutcome
    rw [if_neg (by have := hnodup r hr; omega), if_pos (hvalid r hr)]
  have hall : ∀ r ∈ records,
      programValidStatuses.contains (programRecordOutcome .put store records r) = true := by
    intro r hr
    rw [hout r hr]
    exact hvalid r hr
  rw [programWrite_eq .put store records hlen]
  obtain ⟨r₀, hr₀⟩ := List.exists_mem_of_ne_nil records hne
  have hkd : ∀ a ∈ records,
      programValidStatuses.contains (programRecordOutcome .put store records a) = true →
      countKey records a.1 ≤ 1 :=
    fun a ha h => (programRecordOutcome_applied_facts .put store records a h).1
  refine ⟨?_, ?_, ?_, ?_⟩
  · exact aggregateCode_all_good _ _ _
      (any_map_good _ _ _ r₀ hr₀ (hall r₀ hr₀)) (any_map_no_bad _ _ _ hall)
  · intro r hr
    exact applyRecords_lookup_applied _ _ store records hkd r hr (hall r hr)
  · intro r hr
    rw [buildResults_lookup _ records (programRecordOutcome_key_det .put store records) r hr]
    rw [hout r hr]
  · intro p hp
    obtain ⟨r, hr, hp₁, hp₂⟩ := buildResults_mem _ records p hp
    exact ⟨r, hr, hp₁, by rw [hp₂, hout r hr]⟩

/-- Witness for C7 at the inputs of the test
ProgramEnrollmentsPutTests.test_half_create_modify: learner-01 and learner-02
are created, learner-03 and learner-04 are overwritten from pending. -/
theorem C7_put_upsert_witness :
    ([(("learner-01", "enrolled") : ReqRecord), ("learner-02", "enrolled"),
        ("learner-03", "enrolled"), ("learner-04", "enrolled")].length
        ≤ MAX_ENROLLMENT_RECORDS)
    ∧ ((programEnrollmentsWriteCore .put
          [("learner-03", "pending"), ("learner-04", "pending")]
          [("learner-01", "enrolled"), ("learner-02", "enrolled"),
            ("learner-03", "enrolled"), ("learner-04", "enrolled")]).1.statusCode = 200)
    ∧ (∀ r ∈ [(("learner-01", "enrolled") : ReqRecord), ("learner-02", "enrolled"),
          ("learner-03", "enrolled"), ("learner-04", "enrolled")],
        lookupStatus (programEnrollmentsWriteCore .put
          [("learner-03", "pending"), ("learner-04", "pending")]
          [("learner-01", "enrolled"), ("learner-02", "enrolled"),
            ("learner-03", "enrolled"), ("learner-04", "enrolled")]).2 r.1 = some r.2) := by
  refine ⟨by decide, ?_, ?_⟩
  · exact (C7_put_upsert
      [("learner-03", "pending"), ("learner-04", "pending")]
      [("learner-01", "enrolled"), ("learner-02", "enrolled"),
        ("learner-03", "enrolled"), ("learner-04", "enrolled")]
      (by decide) (by decide) (by decide) (by decide)).1
  · exact (C7_put_upsert
      [("learner-03", "pending"), ("learner-04", "pending")]
      [("learner-01", "enrolled"), ("learner-02", "enrolled"),
        ("learner-03", "enrolled"), ("learner-04", "enrolled")]
      (by decide) (by decide) (by decide) (by decide)).2.1

/-- A record extended with one extra, undeclared field. -/
def extendRecord (r : EnrollmentRecord) (fieldName fieldValue : String) : EnrollmentRecord :=
  { r with extra := r.extra ++ [(fieldName, fieldValue)] }

/-- Claim C10: unknown extra fields in an enrollment record are ignored: for
every bulk enrollment write request on either endpoint and any method, adding
an extra field to a record yields exactly the same response (status and
per-key body) and the same resulting enrollment state as the identical
request without that field. -/
theorem C10_extra_fields_ignored (m : Method) (store : Store) (cs : CourseStore)
    (pre post : List EnrollmentRecord) (r : EnrollmentRecord)
    (fieldName fieldValue : String) :
    programEnrollmentsView m store (pre ++ extendRecord r fieldName fieldValue :: post)
      = programEnrollmentsView m store (pre ++ r :: post)
    ∧ programCourseEnrollmentsView m cs (pre ++ extendRecord r fieldName fieldValue :: post)
      = programCourseEnrollmentsView m cs (pre ++ r :: post) := by
  have hser : (pre ++ extendRecord r fieldName fieldValue :: post).map serializeRecord
      = (pre ++ r :: post).map serializeRecord := by
    simp [List.map_append, serializeRecord, extendRecord]
  constructor
  · unfold programEnrollmentsView
    rw [hser]
  · unfold programCourseEnrollmentsView
    rw [hser]

/-! The program-course grades endpoint. -/

/-- Per-learner result of grade computation: either a computed course grade
(passed, percent, letter grade) or the per-learner exception raised while
computing it. -/
inductive GradeOutcome where
  | grade (passed : Bool) (percent : Rat) (letterGrade : String)
  | failure (message : String)
deriving DecidableEq, Repr

/-- One enrolled learner of the course, identified by student key, together
with the outcome of grading that learner. -/
structure GradeItem where
  studentKey : String
  outcome : GradeOutcome
deriving DecidableEq, Repr

/-- Whether grading this learner raised an exception. -/
def isFailure : GradeOutcome → Bool
  | .grade _ _ _ => false
  | .failure _ => true

/-- One entry of the results list of the grades response: the grade fields,
or an error string, keyed by the student key. -/
inductive GradeResultEntry where
  | grade (studentKey : String) (passed : Bool) (percent : Rat) (letterGrade : String)
  | failure (studentKey : String) (error : String)
deriving DecidableEq, Repr

/-- Serialization of one per-learner grade outcome into a results entry. -/
def serializeGradeItem (it : GradeItem) : GradeResultEntry :=
  match it.outcome with
  | .grade p pc lg => .grade it.studentKey p pc lg
  | .failure msg => .failure it.studentKey msg

/-- Modelled from the spec: the response code of the program-course grades GET
endpoint (ProgramCourseGradesView of rest_api/v1/views.py, not among the
provided sources), aggregated from the per-learner results: 204 No Content
with no results at all, 422 Unprocessable Entity when every learner yielded
an exception, 207 Multi-Status for a mix of grades and exceptions, and
200 OK when every enrolled learner yielded a grade. -/
def gradesResponseCode (items : List GradeItem) : Nat :=
  if items.isEmpty then 204
  else if items.all (fun it => isFailure it.outcome) then 422
  else if items.any (fun it => isFailure it.outcome) then 207
  else 200

/-- Modelled from the spec: the program-course grades GET endpoint for an
authorized staff user: the aggregated response code together with the
results list, one entry per enrolled learner. -/
def programCourseGradesView (items : List GradeItem) : Nat × List GradeResultEntry :=
  (gradesResponseCode items, items.map serializeGradeItem)

/-- Claim C3: the grades response status is determined by aggregating the
per-learner results: 200 exactly when every learner yields a grade and there
is at least one, 207 exactly when grades and exceptions are mixed, 422
exactly when there is at least one learner and all yield exceptions, 204
exactly when there are no results; the results list carries, per student key,
either the grade fields or the error string. -/
theorem C3_grades_aggregation (items : List GradeItem) :
    (programCourseGradesView items).2 = items.map serializeGradeItem
    ∧ ((programCourseGradesView items).1 = 204 ↔ items = [])
    ∧ ((programCourseGradesView items).1 = 200 ↔
        items ≠ [] ∧ ∀ it ∈ items, isFailure it.outcome = false)
    ∧ ((programCourseGradesView items).1 = 207 ↔
        (∃ it ∈ items, isFailure it.outcome = true)
        ∧ (∃ it ∈ items, isFailure it.outcome = false))
    ∧ ((programCourseGradesView items).1 = 422 ↔
        items ≠ [] ∧ ∀ it ∈ items, isFailure it.outcome = true) := by
  refine ⟨rfl, ?_⟩
  unfold programCourseGradesView gradesResponseCode
  by_cases hemp : items = []
  · subst hemp
    simp
  · have hne : items.isEmpty = false := by
      simpa [List.isEmpty_iff] using hemp
    rw [hne]
    by_cases hall : ∀ it ∈ items, isFailure it.outcome = true
    · have hallb : items.all (fun it => isFailure it.outcome) = true :=
        List.all_eq_true.mpr hall
      rw [hallb]
      obtain ⟨it₀, hit₀⟩ := List.exists_mem_of_ne_nil items hemp
      refine ⟨by simp [hemp], ?_, ?_, ⟨fun _ => ⟨hemp, hall⟩, fun _ => rfl⟩⟩
      · constructor
        · intro h; cases h
        · rintro ⟨h₁, h₂⟩
          have := h₂ it₀ hit₀
          rw [hall it₀ hit₀] at this
          cases this
      · constructor
        · intro h; cases h
        · rintro ⟨h₁, ⟨it, hit, hfalse⟩⟩
          rw [hall it hit] at hfalse
          cases hfalse
    · have hallb : items.all (fun it => isFailure it.outcome) = false := by
        rcases not_forall.mp hall with ⟨it, hit⟩
        rcases Classical.not_imp.mp hit with ⟨hmem, hval⟩
        apply List.all_eq_false.mpr
        exact ⟨it, hmem, by simpa using hval⟩
      rw [hallb]
      obtain ⟨itf, hitf, hitfv⟩ : ∃ it ∈ items, isFailure it.outcome = false := by
        rcases not_forall.mp hall with ⟨it, hit⟩
        rcases Classical.not_imp.mp hit with ⟨hmem, hval⟩
        exact ⟨it, hmem, by simpa using hval⟩
      by_cases hany : ∃ it ∈ items, isFailure it.outcome = true
      · have hanyb : items.any (fun it => isFailure it.outcome) = true :=
          List.any_eq_true.mpr hany
        rw [hanyb]
        refine ⟨by simp [hemp], ?_, ⟨fun _ => ⟨hany, ⟨itf, hitf, hitfv⟩⟩, fun _ => rfl⟩, ?_⟩
        · constructor
          · intro h; cases h
          · rintro ⟨h₁, h₂⟩
            obtain ⟨it, hit, hval⟩ := hany
            rw [h₂ it hit] at hval
            cases hval
        · constructor
          · intro h; cases h
          · rintro ⟨h₁, h₂⟩
            rw [h₂ itf hitf] at hitfv
            cases hitfv
      · have hanyb : items.any (fun it => isFailure it.outcome) = false := by
          apply List.any_eq_false.mpr
          intro it hit
          by_contra hc
          exact hany ⟨it, hit, by simpa using hc⟩
        rw [hanyb]
        have hallf : ∀ it ∈ items, isFailure it.outcome = false := by
          intro it hit
          by_contra hc
          exact hany ⟨it, hit, by simpa using hc⟩
        refine ⟨by simp [hemp], ⟨fun _ => ⟨hemp, hallf⟩, fun _ => rfl⟩, ?_, ?_⟩
        · constructor
          · intro h; cases h
          · rintro ⟨⟨it, hit, hval⟩, h₂⟩
            rw [hallf it hit] at hval
            cases hval
        · constructor
          · intro h; cases h
          · rintro ⟨h₁, h₂⟩
            rw [h₂ itf hitf] at hitfv
            cases hitfv

/-! The paginated enrollment listings. -/

/-- One stored program enrollment row as the listing endpoints see it:
external student key, status, whether a platform user account is linked, and
the curriculum uuid. -/
structure ProgramEnrollmentRow where
  externalUserKey : String
  status : String
  hasUser : Bool
  curriculumUuid : String
deriving DecidableEq, Repr

/-- One record of the listing response body. -/
structure ListingEntry where
  student_key : String
  status : String
  account_exists : Bool
  curriculum_uuid : String
deriving DecidableEq, Repr

/-- Modelled from the spec: the listing serializer of the GET endpoints
(ProgramEnrollmentSerializer of rest_api/v1/serializers.py, not among the
provided sources): each record carries student_key, status, account_exists
and curriculum_uuid. -/
def serializeProgramEnrollment (r : ProgramEnrollmentRow) : ListingEntry :=
  ⟨r.externalUserKey, r.status, r.hasUser, r.curriculumUuid⟩

/-- The full (unpaginated) listing returned by a GET of the enrollments
endpoint. -/
def programEnrollmentListing (rows : List ProgramEnrollmentRow) : List ListingEntry :=
  rows.map serializeProgramEnrollment

/-- One page of a paginated listing: the results of the page and the
optional next/previous cursor links. -/
structure Page (α : Type) where
  results : List α
  next : Option String
  previous : Option String
deriving DecidableEq

/-- A cursor link: the endpoint URL followed by the cursor query parameter. -/
def cursorLink (url : String) (c : Nat) : String :=
  url ++ "?cursor=" ++ toString c

/-- Modelled from the spec: cursor pagination of the listing endpoints
("pagination cursors"; the view is not among the provided sources). Page c of
page size n holds items c*n up to (c+1)*n; next is present exactly while
items remain beyond this page, previous exactly when this is not the first
page, and both links carry the endpoint URL and a cursor query parameter. -/
def paginate {α : Type} (url : String) (n : Nat) (items : List α) (c : Nat) : Page α :=
  { results := (items.drop (c * n)).take n
    next := if (c + 1) * n < items.length then some (cursorLink url (c + 1)) else none
    previous := if c = 0 then none else some (cursorLink url (c - 1)) }

/-- Collect the results of successive pages, following the next link from
cursor c, with enough fuel. -/
def followPagesAux {α : Type} (url : String) (n : Nat) (items : List α) :
    Nat → Nat → List α
  | 0, _ => []
  | fuel + 1, c =>
      (paginate url n items c).results ++
        (if (paginate url n items c).next.isSome then
          followPagesAux url n items fuel (c + 1)
        else [])

/-- The concatenation, in order, of the pages reached by repeatedly following
the next link starting from the first page. -/
def followPages {α : Type} (url : String) (n : Nat) (items : List α) : List α :=
  followPagesAux url n items items.length 0

theorem followPagesAux_drop {α : Type} (url : String) (n : Nat) (items : List α)
    (hn : 0 < n) :
    ∀ fuel c, items.length ≤ (c + fuel) * n →
      followPagesAux url n items fuel c = items.drop (c * n) := by
  intro fuel
  induction fuel with
  | zero =>
      intro c h
      have : items.drop (c * n) = [] := by
        apply List.drop_eq_nil_of_le
        simpa using h
      rw [this]
      rfl
  | succ fuel ih =>
      intro c h
      unfold followPagesAux
      by_cases hlt : (c + 1) * n < items.length
      · have hnext : (paginate url n items c).next.isSome = true := by
          simp [paginate, hlt]
        rw [if_pos hnext]
        have harith : ((c + 1) + fuel) * n = (c + (fuel + 1)) * n := by
          ring_nf
        have hrec := ih (c + 1) (by rw [harith]; exact h)
        rw [hrec]
        have hdd : (items.drop (c * n)).drop n = items.drop ((c + 1) * n) := by
          rw [List.drop_drop]
          congr 1
          ring
        calc (paginate url n items c).results ++ items.drop ((c + 1) * n)
            = (items.drop (c * n)).take n ++ (items.drop (c * n)).drop n := by
              rw [hdd]; rfl
          _ = items.drop (c * n) := List.take_append_drop n (items.drop (c * n))
      · have hnext : (paginate url n items c).next.isSome = false := by
          simp [paginate, hlt]
        rw [if_neg (by simp [hnext])]
        have hlen : (items.drop (c * n)).length ≤ n := by
          rw [List.length_drop]
          have : items.length ≤ (c + 1) * n := Nat.not_lt.mp hlt
          have hcn : (c + 1) * n = c * n + n := by ring
          omega
        calc (paginate url n items c).results ++ []
            = (items.drop (c * n)).take n := by simp [paginate]
          _ = items.drop (c * n) := List.take_of_length_le hlen

/-- Claim C5: for every GET of an enrollments listing with a positive
page_size, the pages reached by repeatedly following the next cursor link
concatenate, in order, to exactly the unpaginated listing (records carrying
student_key, status, account_exists, curriculum_uuid); the next link is null
exactly on the last page, the previous link is null exactly on the first
page, and every non-null link is the endpoint URL followed by a cursor query
parameter. -/
theorem C5_pagination_cursor (url : String) (n : Nat)
    (rows : List ProgramEnrollmentRow) (hn : 0 < n) :
    followPages url n (programEnrollmentListing rows) = programEnrollmentListing rows
    ∧ (∀ c, (paginate url n (programEnrollmentListing rows) c).next = none ↔
        (programEnrollmentListing rows).length ≤ (c + 1) * n)
    ∧ (∀ c, (paginate url n (programEnrollmentListing rows) c).previous = none ↔ c = 0)
    ∧ (∀ c link,
        (paginate url n (programEnrollmentListing rows) c).next = some link
          ∨ (paginate url n (programEnrollmentListing rows) c).previous = some link →
        ∃ k : Nat, link = url ++ "?cursor=" ++ toString k) := by
  refine ⟨?_, ?_, ?_, ?_⟩
  · unfold followPages
    have h := followPagesAux_drop url n (programEnrollmentListing rows) hn
      (programEnrollmentListing rows).length 0
      (by simpa using Nat.le_mul_of_pos_right (programEnrollmentListing rows).length hn)
    simpa using h
  · intro c
    unfold paginate
    by_cases hlt : (c + 1) * n < (programEnrollmentListing rows).length
    · simp only [if_pos hlt]
      constructor
      · intro h; cases h
      · intro h; omega
    · simp only [if_neg hlt]
      constructor
      · intro h; omega
      · intro h; trivial
  · intro c
    unfold paginate
    by_cases hc : c = 0
    · simp [hc]
    · simp [hc]
  · intro c link h
    rcases h with h | h
    · unfold paginate at h
      by_cases hlt : (c + 1) * n < (programEnrollmentListing rows).length
      · rw [if_pos hlt] at h
        exact ⟨c + 1, (Option.some_inj.mp h).symm⟩
      · rw [if_neg hlt] at h
        cases h
    · unfold paginate at h
      by_cases hc : c = 0
      · rw [if_pos hc] at h
        cases h
      · rw [if_neg hc] at h
        exact ⟨c - 1, (Option.some_inj.mp h).symm⟩

/-- Witness for C5: the paged listing of the test
ProgramEnrollmentsGetTests.test_200_many_pages (four enrollments, page size
two). -/
theorem C5_pagination_cursor_witness :
    (0 < 2)
    ∧ followPages "/enrollments/" 2
        (programEnrollmentListing
          [⟨"user-0", "pending", false, "aaaa"⟩, ⟨"user-1", "pending", false, "aaaa"⟩,
            ⟨"user-2", "enrolled", true, "aaaa"⟩, ⟨"user-3", "enrolled", true, "aaaa"⟩])
      = programEnrollmentListing
          [⟨"user-0", "pending", false, "aaaa"⟩, ⟨"user-1", "pending", false, "aaaa"⟩,
            ⟨"user-2", "enrolled", true, "aaaa"⟩, ⟨"user-3", "enrolled", true, "aaaa"⟩] := by
  refine ⟨by decide, ?_⟩
  exact (C5_pagination_cursor "/enrollments/" 2
    [⟨"user-0", "pending", false, "aaaa"⟩, ⟨"user-1", "pending", false, "aaaa"⟩,
      ⟨"user-2", "enrolled", true, "aaaa"⟩, ⟨"user-3", "enrolled", true, "aaaa"⟩]
    (by decide)).1

/-! The XBlock runtime Django app-configuration classes, embedded from
src/openedx/core/djangoapps/xblock/apps.py. -/

/-- Key-value store family used for the student data store: apps.py wires a
DictKeyValueStore. -/
inductive KeyValueStoreKind where
  | dictKeyValueStore
deriving DecidableEq, Repr

/-- Field-data backend family: the authored data store is a
BlockstoreFieldData instance, the student data store a KvsFieldData over a
key-value store. -/
inductive FieldDataKind where
  | blockstoreFieldData
  | kvsFieldData (kvs : KeyValueStoreKind)
deriving DecidableEq, Repr

/-- The XBlockRuntimeSystem parameter dictionary built by
get_runtime_system_params of apps.py. -/
structure RuntimeSystemParams where
  authored_data_store : FieldDataKind
  student_data_store : FieldDataKind
deriving DecidableEq, Repr

/-- Result of calling a config method: the returned value, or the
NotImplementedError raised by the abstract base class. -/
inductive MethodResult (α : Type) where
  | ok (value : α)
  | raisesNotImplemented
deriving DecidableEq, Repr

/-- The three app-configuration classes of apps.py: XBlockAppConfig and its
LMS and Studio subclasses. -/
inductive AppConfigKind where
  | xblockAppConfig
  | lmsXBlockAppConfig
  | studioXBlockAppConfig
deriving DecidableEq, Repr

/-- Embeds the class attribute require_edit_permission of apps.py: False on
the base class and the LMS subclass, True in Studio. -/
def require_edit_permission : AppConfigKind → Bool
  | .xblockAppConfig => false
  | .lmsXBlockAppConfig => false
  | .studioXBlockAppConfig => true

/-- Embeds get_runtime_system_params of apps.py: the base class raises
NotImplementedError; the LMS and Studio subclasses both return a dict wiring
authored_data_store to a BlockstoreFieldData instance and student_data_store
to a KvsFieldData over a DictKeyValueStore. -/
def get_runtime_system_params : AppConfigKind → MethodResult RuntimeSystemParams
  | .xblockAppConfig => .raisesNotImplemented
  | .lmsXBlockAppConfig =>
      .ok ⟨.blockstoreFieldData, .kvsFieldData .dictKeyValueStore⟩
  | .studioXBlockAppConfig =>
      .ok ⟨.blockstoreFieldData, .kvsFieldData .dictKeyValueStore⟩

/-- The Django settings values read by get_site_root_url of apps.py, plus the
optional site-configuration override of LMS_ROOT_URL. -/
structure SiteSettings where
  lmsRootUrlOverride : Option String
  LMS_ROOT_URL : String
  HTTPS : String
  CMS_BASE : String
deriving DecidableEq, Repr

/-- Embeds get_site_root_url of apps.py: the base class raises
NotImplementedError; the LMS subclass returns the configured LMS_ROOT_URL
value (site-configuration override first); the Studio subclass builds the
URL from the HTTPS switch and CMS_BASE. -/
def get_site_root_url : AppConfigKind → SiteSettings → MethodResult String
  | .xblockAppConfig, _ => .raisesNotImplemented
  | .lmsXBlockAppConfig, s =>
      .ok (match s.lmsRootUrlOverride with
        | some v => v
        | none => s.LMS_ROOT_URL)
  | .studioXBlockAppConfig, s =>
      .ok ((if s.HTTPS == "on" then "https" else "http") ++ "://" ++ s.CMS_BASE)

/-- Claim C8: the XBlock runtime app-configuration classes are abstract
configuration stubs selecting field-data backends: every call of
get_runtime_system_params or get_site_root_url on the base class
XBlockAppConfig raises NotImplementedError, while get_runtime_system_params of the LMS and
Studio subclasses each returns a dictionary wiring authored_data_store
to a BlockstoreFieldData instance and student_data_store to a KvsFieldData
over a DictKeyValueStore. -/
theorem C8_xblock_app_config_stubs :
    get_runtime_system_params .xblockAppConfig = .raisesNotImplemented
    ∧ (∀ s : SiteSettings, get_site_root_url .xblockAppConfig s = .raisesNotImplemented)
    ∧ get_runtime_system_params .lmsXBlockAppConfig
        = .ok ⟨.blockstoreFieldData, .kvsFieldData .dictKeyValueStore⟩
    ∧ get_runtime_system_params .studioXBlockAppConfig
        = .ok ⟨.blockstoreFieldData, .kvsFieldData .dictKeyValueStore⟩ :=
  ⟨rfl, fun _ => rfl, rfl, rfl⟩

/-! The CMS devstack settings module, embedded from src/cms/envs/devstack.py. -/

/-- An incoming HTTP request as the settings module sees it: the value of
request.get_host(), as a character list. -/
structure HttpRequest where
  host : List Char
deriving DecidableEq, Repr

/-- The host prefix that identifies requests from the devstack studio Docker
container in devstack.py. -/
def devstackStudioMarker : List Char := "edx.devstack.studio:".data

/-- Embeds should_show_debug_toolbar of src/cms/envs/devstack.py lines
101-105: the toolbar is shown unless the request host starts with
edx.devstack.studio followed by a colon. -/
def should_show_debug_toolbar (request : HttpRequest) : Bool :=
  if devstackStudioMarker.isPrefixOf request.host then false else true

/-- Embeds a sample of the fixed settings constants of devstack.py. -/
def DEBUG_SETTING : Bool := true

/-- Embeds the HTTPS constant of devstack.py. -/
def HTTPS_SETTING : String := "off"

/-- Embeds the SITE_NAME constant of devstack.py. -/
def SITE_NAME_SETTING : String := "localhost:8001"

/-- Counterexample to claim C9 as stated: the settings module makes a
setting-derived decision that differs between two requests —
should_show_debug_toolbar returns False for a request whose host starts
with edx.devstack.studio and True for a localhost request. -/
theorem C9_counterexample :
    should_show_debug_toolbar ⟨"edx.devstack.studio:18010".data⟩
      ≠ should_show_debug_toolbar ⟨"localhost:8001".data⟩ := by
  decide

/-- Claim C9 (amended): the defined setting values of devstack.py are fixed
constants, and the one request-dependent decision of the module,
should_show_debug_toolbar, depends only on whether the request host starts
with edx.devstack.studio followed by a colon — not on any other request
data. -/
theorem C9_settings_request_dependence (r₁ r₂ : HttpRequest)
    (h : devstackStudioMarker.isPrefixOf r₁.host
      = devstackStudioMarker.isPrefixOf r₂.host) :
    should_show_debug_toolbar r₁ = should_show_debug_toolbar r₂
    ∧ DEBUG_SETTING = true
    ∧ HTTPS_SETTING = "off"
    ∧ SITE_NAME_SETTING = "localhost:8001" := by
  refine ⟨?_, rfl, rfl, rfl⟩
  unfold should_show_debug_toolbar
  rw [h]

/-- Witness for the amended C9: two distinct localhost requests with equal
host-prefix test get the same toolbar decision. -/
theorem C9_settings_request_dependence_witness :
    (devstackStudioMarker.isPrefixOf ("localhost:8001".data)
      = devstackStudioMarker.isPrefixOf ("127.0.0.1:8001".data))
    ∧ should_show_debug_toolbar ⟨"localhost:8001".data⟩
        = should_show_debug_toolbar ⟨"127.0.0.1:8001".data⟩ := by
  refine ⟨by decide, ?_⟩
  exact (C9_settings_request_dependence ⟨"localhost:8001".data⟩
    ⟨"127.0.0.1:8001".data⟩ (by decide)).1
